import Mathlib

/-!
Verification of the EntryDesk spreadsheet ingestion pipeline.

The Python source is shallowly embedded: strings are `String`/`List Char`,
`None`/`NaN` cells are `Option`, database rows are lists of records, and the
module-level write-lock global is passed explicitly.  Definitions named after
the Python functions (`normalize_string`, `check_duplicate_athlete`,
`get_next_unique_id`, `validate_excel_data`, ...) are direct translations of
the corresponding bodies in `database.py`, `excel_utils.py` and `api.py`.
-/

namespace EntryDesk

/-! ### Python primitive string operations -/

/-- The whitespace characters recognised by Python's default `str.strip()` /
`str.split()` (ASCII subset). -/
def isSpaceChar (c : Char) : Bool :=
  c = ' ' || c = '\t' || c = '\n' || c = '\r' || c = '\x0b' || c = '\x0c'

/-- Models Python `str.lower()` on a single character (ASCII range). -/
def lowerChar (c : Char) : Char :=
  if c.toNat ≥ 65 ∧ c.toNat ≤ 90 then Char.ofNat (c.toNat + 32) else c

/-- Models Python `str.upper()` on a single character (ASCII range). -/
def upperChar (c : Char) : Char :=
  if c.toNat ≥ 97 ∧ c.toNat ≤ 122 then Char.ofNat (c.toNat - 32) else c

/-- Remove leading whitespace (half of Python `str.strip()`). -/
def trimLeft (l : List Char) : List Char := l.dropWhile isSpaceChar

/-- Remove trailing whitespace (the other half of Python `str.strip()`). -/
def trimRight : List Char → List Char
  | [] => []
  | c :: cs =>
    let r := trimRight cs
    if r = [] then (if isSpaceChar c then [] else [c]) else c :: r

/-- Python `str.strip()` with no arguments. -/
def pyStripL (l : List Char) : List Char := trimRight (trimLeft l)

/-- Python `str.strip()` on `String`. -/
def pyStrip (s : String) : String := ⟨pyStripL s.data⟩

/-- Python `str.lower()` on `String` (ASCII case mapping). -/
def pyLower (s : String) : String := ⟨s.data.map lowerChar⟩

/-- Helper for Python `str.split()`: `acc` holds the reversed characters of
the word currently being read. -/
def splitAux : List Char → List Char → List (List Char)
  | [], [] => []
  | [], acc => [acc.reverse]
  | c :: cs, acc =>
    if isSpaceChar c then
      if acc = [] then splitAux cs [] else acc.reverse :: splitAux cs []
    else splitAux cs (c :: acc)

/-- Python `str.split()` with no arguments: splits on runs of whitespace and
never produces empty words. -/
def pySplit (l : List Char) : List (List Char) := splitAux l []

/-- Python `" ".join(words)`. -/
def joinWords : List (List Char) → List Char
  | [] => []
  | [w] => w
  | w :: ws => w ++ ' ' :: joinWords ws

/-- Python `str.capitalize()`: first character upper-cased, the rest
lower-cased. -/
def pyCapitalize (s : String) : String :=
  match s.data with
  | [] => ""
  | c :: cs => ⟨upperChar c :: cs.map lowerChar⟩

/-! ### `database.py`: `normalize_string` -/

/-- `database.normalize_string`: translation of
`if not s: return ""` / `return " ".join(str(s).strip().lower().split())`.
A `none` input models Python `None`. -/
def normalize_string (s : Option String) : String :=
  match s with
  | none => ""
  | some s => if s = "" then "" else ⟨joinWords (pySplit ((pyStripL s.data).map lowerChar))⟩

/-! ### Specification-side normalizer

`specNormalize` follows the spec's words for §4.1 Normalizer: "trims
leading/trailing whitespace, collapses internal runs of whitespace to a
single space, lower-cases the result"; empty string for null input. -/

/-- Replace every run of whitespace by a single space. -/
def collapseRuns : List Char → List Char
  | [] => []
  | c :: cs =>
    if isSpaceChar c then ' ' :: collapseRuns (cs.dropWhile isSpaceChar)
    else c :: collapseRuns cs
termination_by l => l.length
decreasing_by
  · simp only [List.length_cons]
    have h := List.dropWhile_sublist (l := cs) (p := isSpaceChar)
    have := h.length_le
    omega
  · simp

/-- The spec's normalizer, assembled exactly from its words: trim, collapse
internal whitespace runs, lower-case; empty string for null input. -/
def specNormalize (s : Option String) : String :=
  match s with
  | none => ""
  | some s => ⟨(collapseRuns (pyStripL s.data)).map lowerChar⟩

/-! ### Canonical form: the common core of both normalizers -/

/-- Canonicalisation of whitespace, fused: `canonF false` processes input at a
word boundary, `canonF true` processes input already inside a word. -/
def canonF : Bool → List Char → List Char
  | _, [] => []
  | false, c :: cs =>
    if isSpaceChar c then canonF false cs else c :: canonF true cs
  | true, c :: cs =>
    if isSpaceChar c then
      let r := canonF false cs
      if r = [] then [] else ' ' :: r
    else c :: canonF true cs

/-- Trim plus whitespace-run collapse, at a word boundary. -/
def canon (l : List Char) : List Char := canonF false l

/-! ### Character-level lemmas -/

theorem char_eq_iff_toNat {a b : Char} : a = b ↔ a.toNat = b.toNat := by
  constructor
  · intro h; rw [h]
  · intro h
    apply Char.eq_of_val_eq
    apply UInt32.eq_of_toBitVec_eq
    apply BitVec.eq_of_toNat_eq
    simpa [Char.toNat, UInt32.toNat] using h

theorem toNat_ofNat_valid (n : Nat) (h : n.isValidChar) : (Char.ofNat n).toNat = n := by
  unfold Char.ofNat
  rw [dif_pos h]
  simp [Char.ofNatAux, Char.toNat, UInt32.toNat]

theorem isSpaceChar_iff (c : Char) :
    isSpaceChar c = true ↔
      c.toNat = 32 ∨ c.toNat = 9 ∨ c.toNat = 10 ∨ c.toNat = 13 ∨ c.toNat = 11 ∨
        c.toNat = 12 := by
  have h1 : (' ').toNat = 32 := rfl
  have h2 : ('\t').toNat = 9 := rfl
  have h3 : ('\n').toNat = 10 := rfl
  have h4 : ('\r').toNat = 13 := rfl
  have h5 : ('\x0b').toNat = 11 := rfl
  have h6 : ('\x0c').toNat = 12 := rfl
  simp only [isSpaceChar, Bool.or_eq_true, decide_eq_true_eq, char_eq_iff_toNat,
    h1, h2, h3, h4, h5, h6]
  tauto

theorem lowerChar_toNat_of_upper {c : Char} (h : 65 ≤ c.toNat ∧ c.toNat ≤ 90) :
    (lowerChar c).toNat = c.toNat + 32 := by
  rw [lowerChar, if_pos h]
  exact toNat_ofNat_valid _ (Or.inl (by omega))

theorem isSpaceChar_lowerChar (c : Char) : isSpaceChar (lowerChar c) = isSpaceChar c := by
  by_cases h : 65 ≤ c.toNat ∧ c.toNat ≤ 90
  · have h1 := lowerChar_toNat_of_upper h
    rw [Bool.eq_iff_iff, isSpaceChar_iff, isSpaceChar_iff, h1]
    omega
  · rw [lowerChar, if_neg h]

theorem lowerChar_idem (c : Char) : lowerChar (lowerChar c) = lowerChar c := by
  by_cases h : 65 ≤ c.toNat ∧ c.toNat ≤ 90
  · have h1 := lowerChar_toNat_of_upper h
    rw [show lowerChar (lowerChar c) =
          (if (lowerChar c).toNat ≥ 65 ∧ (lowerChar c).toNat ≤ 90 then
            Char.ofNat ((lowerChar c).toNat + 32)
          else lowerChar c) from rfl]
    rw [if_neg (by rw [h1]; omega)]
  · have hc : lowerChar c = c := by rw [lowerChar, if_neg h]
    rw [hc]
    exact hc

theorem lowerChar_space : lowerChar ' ' = ' ' := by decide

/-! ### Structural lemmas about the whitespace machinery -/

theorem trimRight_cons (c : Char) (cs : List Char) :
    trimRight (c :: cs) =
      if trimRight cs = [] then (if isSpaceChar c then [] else [c])
      else c :: trimRight cs := rfl

theorem joinWords_cons (w : List Char) (ws : List (List Char)) :
    joinWords (w :: ws) = w ++ if ws = [] then [] else ' ' :: joinWords ws := by
  cases ws <;> simp [joinWords]

theorem canonF_nil_iff : ∀ (b : Bool) (l : List Char),
    canonF b l = [] ↔ l.all isSpaceChar := by
  intro b l
  induction l generalizing b with
  | nil => cases b <;> simp [canonF]
  | cons c cs ih =>
    cases b with
    | false =>
      by_cases hc : isSpaceChar c <;> simp [canonF, hc, ih false]
    | true =>
      by_cases hc : isSpaceChar c
      · by_cases hr : canonF false cs = []
        · simp [canonF, hc, hr, (ih false).mp hr]
        · have hncs : ¬ cs.all isSpaceChar = true := fun h => hr ((ih false).mpr h)
          simp [canonF, hc, hr, hncs]
      · simp [canonF, hc]

theorem splitAux_ne_nil : ∀ (l acc : List Char), acc ≠ [] → splitAux l acc ≠ [] := by
  intro l
  induction l with
  | nil =>
    intro acc h
    match acc with
    | a :: as => simp [splitAux]
  | cons c cs ih =>
    intro acc h
    match acc with
    | a :: as =>
      by_cases hc : isSpaceChar c
      · simp [splitAux, hc]
      · simpa [splitAux, hc] using ih (c :: a :: as) (by simp)

theorem splitAux_nil_nil_iff : ∀ l : List Char, splitAux l [] = [] ↔ l.all isSpaceChar := by
  intro l
  induction l with
  | nil => simp [splitAux]
  | cons c cs ih =>
    by_cases hc : isSpaceChar c <;> simp [splitAux, hc, ih]
    exact splitAux_ne_nil cs [c] (by simp)

theorem trimRight_nil_iff : ∀ l : List Char, trimRight l = [] ↔ l.all isSpaceChar := by
  intro l
  induction l with
  | nil => simp [trimRight]
  | cons c cs ih =>
    rw [trimRight_cons]
    by_cases hr : trimRight cs = [] <;> by_cases hc : isSpaceChar c <;>
      simp_all

theorem dropWhile_eq_nil_of_all {l : List Char} (h : l.all isSpaceChar) :
    l.dropWhile isSpaceChar = [] := by
  induction l with
  | nil => rfl
  | cons c cs ih =>
    simp only [List.all_cons, Bool.and_eq_true] at h
    simp [List.dropWhile, h.1, ih h.2]

theorem dropWhile_nil_iff (l : List Char) :
    l.dropWhile isSpaceChar = [] ↔ l.all isSpaceChar := by
  induction l with
  | nil => simp
  | cons c cs ih => by_cases hc : isSpaceChar c <;> simp [List.dropWhile_cons, hc, ih]

theorem dropWhile_head_false :
    ∀ (l : List Char) (c : Char) (cs : List Char),
      l.dropWhile isSpaceChar = c :: cs → isSpaceChar c = false := by
  intro l
  induction l with
  | nil => intro c cs h; cases h
  | cons a as ih =>
    intro c cs h
    by_cases ha : isSpaceChar a
    · rw [List.dropWhile_cons, if_pos ha] at h
      exact ih c cs h
    · rw [List.dropWhile_cons, if_neg ha] at h
      rw [← (List.cons.injEq ..).mp h |>.1]
      simpa using ha

/-! ### Equivalence: `" ".join(l.split())` is trim-and-collapse -/

theorem joinWords_splitAux : ∀ l : List Char,
    joinWords (splitAux l []) = canonF false l ∧
      ∀ acc : List Char, acc ≠ [] →
        joinWords (splitAux l acc) = acc.reverse ++ canonF true l := by
  intro l
  induction l with
  | nil =>
    refine ⟨rfl, ?_⟩
    intro acc h
    match acc with
    | a :: as => simp [splitAux, joinWords, canonF]
  | cons c cs ih =>
    constructor
    · by_cases hc : isSpaceChar c
      · simpa [splitAux, hc, canonF] using ih.1
      · have h2 := ih.2 [c] (by simp)
        rw [show splitAux (c :: cs) [] = splitAux cs [c] by simp [splitAux, hc], h2]
        simp [canonF, hc]
    · intro acc hacc
      match acc with
      | a :: as =>
        by_cases hc : isSpaceChar c
        · rw [show splitAux (c :: cs) (a :: as) = (a :: as).reverse :: splitAux cs [] by
            simp [splitAux, hc]]
          rw [joinWords_cons]
          by_cases hr : splitAux cs [] = []
          · have hall : cs.all isSpaceChar := (splitAux_nil_nil_iff cs).mp hr
            have hcan : canonF false cs = [] := (canonF_nil_iff false cs).mpr hall
            simp [hr, canonF, hc, hcan]
          · have hcan : canonF false cs ≠ [] := fun h =>
              hr ((splitAux_nil_nil_iff cs).mpr ((canonF_nil_iff false cs).mp h))
            simp [hr, canonF, hc, hcan, ih.1]
        · have h2 := ih.2 (c :: a :: as) (by simp)
          rw [show splitAux (c :: cs) (a :: as) = splitAux cs (c :: a :: as) by
            simp [splitAux, hc], h2]
          simp [canonF, hc]

theorem joinWords_pySplit (l : List Char) : joinWords (pySplit l) = canonF false l :=
  (joinWords_splitAux l).1

/-! ### Equivalence: trim-then-collapse equals the canonical form -/

theorem canonF_false_dropWhile (l : List Char) :
    canonF false (l.dropWhile isSpaceChar) = canonF false l := by
  induction l with
  | nil => rfl
  | cons c cs ih =>
    by_cases hc : isSpaceChar c <;> simp [List.dropWhile_cons, hc, canonF, ih]

theorem canonF_trimRight : ∀ l : List Char,
    canonF false (trimRight l) = canonF false l ∧
      canonF true (trimRight l) = canonF true l := by
  intro l
  induction l with
  | nil => exact ⟨rfl, rfl⟩
  | cons c cs ih =>
    rw [trimRight_cons]
    by_cases hr : trimRight cs = []
    · have hall : cs.all isSpaceChar := (trimRight_nil_iff cs).mp hr
      have hcan : canonF false cs = [] := (canonF_nil_iff false cs).mpr hall
      have hcant : canonF true cs = [] := (canonF_nil_iff true cs).mpr hall
      by_cases hc : isSpaceChar c
      · simp [hr, hc, canonF, hcan, hcant]
      · simp [hr, hc, canonF, hcan, hcant]
    · constructor
      · by_cases hc : isSpaceChar c <;> simp [hr, hc, canonF, ih.1, ih.2]
      · by_cases hc : isSpaceChar c <;> simp [hr, hc, canonF, ih.1, ih.2]

theorem dropWhile_trimRight : ∀ l : List Char,
    (trimRight l).dropWhile isSpaceChar = trimRight (l.dropWhile isSpaceChar) := by
  intro l
  induction l with
  | nil => rfl
  | cons c cs ih =>
    rw [trimRight_cons]
    by_cases hr : trimRight cs = []
    · by_cases hc : isSpaceChar c
      · have hall := (trimRight_nil_iff cs).mp hr
        simp [hr, hc, List.dropWhile_cons, dropWhile_eq_nil_of_all hall, trimRight]
      · simp [hr, hc, List.dropWhile_cons, trimRight_cons]
    · by_cases hc : isSpaceChar c
      · simp [hr, hc, List.dropWhile_cons, ih]
      · simp [hr, hc, List.dropWhile_cons, trimRight_cons]

theorem collapseRuns_trimRight : ∀ (n : Nat) (l : List Char), l.length ≤ n →
    collapseRuns (trimRight l) = canonF true l := by
  intro n
  induction n with
  | zero =>
    intro l h
    have h0 : l = [] := List.eq_nil_of_length_eq_zero (Nat.le_zero.mp h)
    subst h0; simp [collapseRuns, trimRight, canonF]
  | succ n ih =>
    intro l h
    match l with
    | [] => simp [collapseRuns, trimRight, canonF]
    | c :: cs =>
      have hlen : cs.length ≤ n := by simpa using h
      rw [trimRight_cons]
      by_cases hr : trimRight cs = []
      · have hall : cs.all isSpaceChar := (trimRight_nil_iff cs).mp hr
        have hcan : canonF false cs = [] := (canonF_nil_iff false cs).mpr hall
        have hcant : canonF true cs = [] := (canonF_nil_iff true cs).mpr hall
        by_cases hc : isSpaceChar c
        · simp [hr, hc, canonF, hcan, collapseRuns]
        · simp [hr, hc, canonF, hcant, collapseRuns]
      · rw [if_neg hr]
        by_cases hc : isSpaceChar c
        · have hncs : ¬ cs.all isSpaceChar = true := fun hh => hr ((trimRight_nil_iff cs).mpr hh)
          have hcan : canonF false cs ≠ [] := fun hh => hncs ((canonF_nil_iff false cs).mp hh)
          cases hdd : cs.dropWhile isSpaceChar with
          | nil => exact absurd ((dropWhile_nil_iff cs).mp hdd) hncs
          | cons c' cs' =>
            have hc' : isSpaceChar c' = false := dropWhile_head_false cs c' cs' hdd
            have hlen' : (c' :: cs').length ≤ n := by
              have hsub := (List.dropWhile_sublist (l := cs) (p := isSpaceChar)).length_le
              rw [hdd] at hsub
              omega
            have hrec := ih (c' :: cs') hlen'
            calc collapseRuns (c :: trimRight cs)
                = ' ' :: collapseRuns ((trimRight cs).dropWhile isSpaceChar) := by
                  simp [collapseRuns, hc]
              _ = ' ' :: collapseRuns (trimRight (cs.dropWhile isSpaceChar)) := by
                  rw [dropWhile_trimRight]
              _ = ' ' :: collapseRuns (trimRight (c' :: cs')) := by rw [hdd]
              _ = ' ' :: canonF true (c' :: cs') := by rw [hrec]
              _ = ' ' :: canonF false (c' :: cs') := by simp [canonF, hc']
              _ = ' ' :: canonF false (cs.dropWhile isSpaceChar) := by rw [hdd]
              _ = ' ' :: canonF false cs := by rw [canonF_false_dropWhile]
              _ = canonF true (c :: cs) := by simp [canonF, hc, hcan]
        · have hrec := ih cs hlen
          simp [collapseRuns, hc, hrec, canonF]

theorem collapseRuns_pyStripL : ∀ l : List Char,
    collapseRuns (pyStripL l) = canonF false l := by
  intro l
  induction l with
  | nil => simp [collapseRuns, pyStripL, trimLeft, trimRight, canonF]
  | cons c cs ih =>
    by_cases hc : isSpaceChar c
    · have h1 : pyStripL (c :: cs) = pyStripL cs := by
        simp [pyStripL, trimLeft, List.dropWhile_cons, hc]
      rw [h1, ih]
      simp [canonF, hc]
    · have h1 : pyStripL (c :: cs) = trimRight (c :: cs) := by
        simp [pyStripL, trimLeft, List.dropWhile_cons, hc]
      rw [h1, collapseRuns_trimRight (c :: cs).length (c :: cs) (le_refl _)]
      simp [canonF, hc]

/-! ### Lower-casing commutes with canonicalisation -/

theorem canonF_map_lower : ∀ (b : Bool) (l : List Char),
    canonF b (l.map lowerChar) = (canonF b l).map lowerChar := by
  intro b l
  induction l generalizing b with
  | nil => cases b <;> rfl
  | cons c cs ih =>
    cases b with
    | false =>
      by_cases hc : isSpaceChar c
      · simp [canonF, isSpaceChar_lowerChar, hc, ih false]
      · simp [canonF, isSpaceChar_lowerChar, hc, ih true]
    | true =>
      by_cases hc : isSpaceChar c
      · by_cases hr : canonF false cs = []
        · simp [canonF, isSpaceChar_lowerChar, hc, ih false, hr]
        · simp [canonF, isSpaceChar_lowerChar, hc, ih false, hr, lowerChar_space]
      · simp [canonF, isSpaceChar_lowerChar, hc, ih true]

theorem canonF_idem : ∀ l : List Char,
    canonF false (canonF false l) = canonF false l ∧
      canonF true (canonF true l) = canonF true l := by
  intro l
  induction l with
  | nil => exact ⟨rfl, rfl⟩
  | cons c cs ih =>
    constructor
    · by_cases hc : isSpaceChar c
      · simpa [canonF, hc] using ih.1
      · simp [canonF, hc, ih.2]
    · by_cases hc : isSpaceChar c
      · by_cases hr : canonF false cs = []
        · simp [canonF, hc, hr]
        · have hsp : isSpaceChar ' ' = true := rfl
          simp [canonF, hc, hr, hsp, ih.1]
      · simp [canonF, hc, ih.2]

/-! ### The two normalizers, expressed through the canonical form -/

theorem normalize_string_eq_canon (s : String) :
    normalize_string (some s) = ⟨(canonF false s.data).map lowerChar⟩ := by
  by_cases hs : s = ""
  · subst hs; rfl
  · simp only [normalize_string]
    rw [if_neg hs]
    congr 1
    rw [joinWords_pySplit, canonF_map_lower false (pyStripL s.data)]
    congr 1
    rw [show pyStripL s.data = trimRight (trimLeft s.data) from rfl,
      (canonF_trimRight (trimLeft s.data)).1]
    exact canonF_false_dropWhile s.data

theorem specNormalize_eq_canon (s : String) :
    specNormalize (some s) = ⟨(canonF false s.data).map lowerChar⟩ := by
  simp only [specNormalize]
  rw [collapseRuns_pyStripL]

/-! ### Data model (`database.py`) -/

/-- A calendar date, as stored for `dob` (no time component matters here). -/
structure SimpleDate where
  year : Nat
  month : Nat
  day : Nat
deriving DecidableEq, Repr

/-- A persisted `Athlete` row: `id` is the storage primary key, `unique_id`
the globally allocated athlete number. -/
structure AthleteRec where
  id : Nat
  unique_id : Nat
  name : String
  dob : SimpleDate
  dojo : String
  belt : String
  day : String
  gender : Option String
  coach_id : Nat
deriving DecidableEq, Repr

/-- `database.get_next_unique_id`: the source orders `unique_id` descending
and takes the first row, i.e. the maximum; `max + 1` when a record exists,
else `1`. -/
def get_next_unique_id (db : List AthleteRec) : Nat :=
  match (db.map (fun a => a.unique_id)).max? with
  | some m => m + 1
  | none => 1

/-- Python truthiness of an optional string (`if s:`): `None` and `""` are
falsy. -/
def truthyStr : Option String → Bool
  | none => false
  | some s => s ≠ ""

/-- The `for athlete in query.all()` loop of `database.check_duplicate_athlete`:
return the current athlete on a name match when the normalized dojo is not
required (falsy) or also matches; otherwise continue with the rest. -/
def dupScan (normalized_name : String) (normalized_dojo : Option String) :
    List AthleteRec → Option AthleteRec
  | [] => none
  | athlete :: rest =>
    if normalize_string (some athlete.name) = normalized_name then
      match normalized_dojo with
      | some nd =>
        if nd ≠ "" then
          if normalize_string (some athlete.dojo) = nd then some athlete
          else dupScan normalized_name normalized_dojo rest
        else some athlete
      | none => some athlete
    else dupScan normalized_name normalized_dojo rest

/-- `database.check_duplicate_athlete`.  `dojo = none` models the `None`
default; `coach_id = none` models the `None` default, and the Python
`if coach_id:` truthiness test makes a supplied `0` behave like `None`. -/
def check_duplicate_athlete (db : List AthleteRec) (name : String) (dob : SimpleDate)
    (dojo : Option String) (coach_id : Option Nat) : Option AthleteRec :=
  let normalized_name := normalize_string (some name)
  let normalized_dojo := if truthyStr dojo then some (normalize_string dojo) else none
  let query := db.filter (fun a => a.dob == dob)
  let query :=
    match coach_id with
    | some cid => if cid ≠ 0 then query.filter (fun a => a.coach_id == cid) else query
    | none => query
  dupScan normalized_name normalized_dojo query

/-! ### Spreadsheet rows (`excel_utils.py`) -/

/-- A `dob` cell of the spreadsheet: either already a date (Excel date cell)
or a raw string still to be parsed. -/
inductive DobCell where
  | date (d : SimpleDate)
  | str (s : String)
deriving DecidableEq, Repr

/-- One spreadsheet row restricted to the six required columns; `none` models
a `NaN` cell. -/
structure Row where
  name : Option String
  dob : Option DobCell
  dojo : Option String
  belt : Option String
  day : Option String
  gender : Option String
deriving DecidableEq, Repr

def required_columns : List String := ["name", "dob", "dojo", "belt", "day", "gender"]

def valid_belts : List String :=
  ["white", "yellow", "blue", "purple", "green", "brown", "black"]

def male_tokens : List String := ["male", "m", "boy", "b"]

def female_tokens : List String := ["female", "f", "girl", "g"]

def saturday_tokens : List String := ["sat", "saturday"]

def sunday_tokens : List String := ["sun", "sunday"]

/-- `pd.isna(cell) or str(cell).strip() == ''`. -/
def isBlankCell : Option String → Bool
  | none => true
  | some s => pyStrip s = ""

/-- `str(cell)` for a present cell (callers only reach it on non-`NaN`
cells). -/
def getCell : Option String → String
  | none => ""
  | some s => s

/-- Digits of an ASCII decimal number, or `none`. -/
def digitsToNat? (l : List Char) : Option Nat :=
  if l ≠ [] ∧ l.all (fun c => c.isDigit) then
    some (l.foldl (fun n c => n * 10 + (c.toNat - 48)) 0)
  else none

/-- Split on a literal dash, keeping empty pieces. -/
def splitDash : List Char → List (List Char)
  | [] => [[]]
  | c :: cs =>
    if c = '-' then [] :: splitDash cs
    else
      match splitDash cs with
      | w :: ws => (c :: w) :: ws
      | [] => [[c]]

/-- Model of the external `pandas.to_datetime(value, errors='coerce')` call,
restricted to ISO `YYYY-MM-DD` date strings; anything else coerces to `NaT`
(`none`).  The library is an excluded external collaborator, and no claim
depends on which additional formats it accepts. -/
def parseDate (s : String) : Option SimpleDate :=
  match splitDash (pyStripL s.data) with
  | [y, m, d] =>
    match digitsToNat? y, digitsToNat? m, digitsToNat? d with
    | some yn, some mn, some dn =>
      if 1 ≤ mn ∧ mn ≤ 12 ∧ 1 ≤ dn ∧ dn ≤ 31 then some ⟨yn, mn, dn⟩ else none
    | _, _, _ => none
  | _ => none

/-- The dojo, belt, day and gender checks of the per-row loop body of
`excel_utils.validate_excel_data`, i.e. the part reached once name and dob
validated; `dobVal` is the parsed dob.  On success the returned row carries
the in-place mutations the source makes: `dob` parsed, `belt` capitalized,
`day` and `gender` canonicalized; `name` and `dojo` are left exactly as they
were. -/
def validateRowTail (rowNum : Nat) (row : Row) (dobVal : SimpleDate) : Except String Row :=
  if isBlankCell row.dojo then .error ("Row " ++ Nat.repr rowNum ++ ": Missing dojo")
  else if isBlankCell row.belt then
    .error ("Row " ++ Nat.repr rowNum ++ ": Missing belt")
  else
    let beltVal := pyLower (pyStrip (getCell row.belt))
    if ¬ valid_belts.contains beltVal then
      .error ("Row " ++ Nat.repr rowNum ++ ": Invalid belt '" ++ getCell row.belt ++ "'")
    else if isBlankCell row.day then
      .error ("Row " ++ Nat.repr rowNum ++ ": Missing day")
    else
      let dayVal := pyLower (pyStrip (getCell row.day))
      let dayResult : Except String String :=
        if saturday_tokens.contains dayVal then .ok "Saturday"
        else if sunday_tokens.contains dayVal then .ok "Sunday"
        else
          .error ("Row " ++ Nat.repr rowNum ++ ": Invalid day '" ++ getCell row.day ++
            "' (expected: Saturday/Sunday/Sat/Sun)")
      match dayResult with
      | .error e => .error e
      | .ok dayCanon =>
        if isBlankCell row.gender then
          .error ("Row " ++ Nat.repr rowNum ++ ": Missing gender")
        else
          let genderVal := pyLower (pyStrip (getCell row.gender))
          let genderResult : Except String String :=
            if male_tokens.contains genderVal then .ok "Male"
            else if female_tokens.contains genderVal then .ok "Female"
            else
              .error ("Row " ++ Nat.repr rowNum ++ ": Invalid gender '" ++
                getCell row.gender ++ "' (expected: Male/Female/M/F/Boy/Girl/B/G)")
          match genderResult with
          | .error e => .error e
          | .ok genderCanon =>
            .ok ⟨row.name, some (.date dobVal), row.dojo,
              some (pyCapitalize beltVal), some dayCanon, some genderCanon⟩

/-- The per-row body of the `for idx, row in df.iterrows()` loop of
`excel_utils.validate_excel_data`: the sequential `skip_reason` checks,
short-circuiting in source order (name, dob, dojo, belt, day, gender); the
checks after dob live in `validateRowTail`. -/
def validateRow (idx : Nat) (row : Row) : Except String Row :=
  let rowNum := idx + 2
  if isBlankCell row.name then .error ("Row " ++ Nat.repr rowNum ++ ": Missing name")
  else
    match row.dob with
    | none => .error ("Row " ++ Nat.repr rowNum ++ ": Missing DOB")
    | some dobCell =>
      let dobResult : Except String SimpleDate :=
        match dobCell with
        | .date d => .ok d
        | .str s =>
          match parseDate s with
          | none => .error ("Row " ++ Nat.repr rowNum ++ ": Invalid DOB format")
          | some d => .ok d
      match dobResult with
      | .error e => .error e
      | .ok dobVal => validateRowTail rowNum row dobVal

/-- A dataframe: its (header) column names and its data rows.  Rows are
indexed by position, matching the pandas integer index of `read_excel`. -/
structure Sheet where
  columns : List String
  rows : List Row
deriving DecidableEq, Repr

/-- `', '.join(...)`. -/
def joinComma : List String → String
  | [] => ""
  | [s] => s
  | s :: ss => s ++ ", " ++ joinComma ss

/-- `df.dropna(how='all')`: a row is dropped when every cell is `NaN`. -/
def rowAllNa (r : Row) : Bool :=
  r.name.isNone && r.dob.isNone && r.dojo.isNone && r.belt.isNone && r.day.isNone &&
    r.gender.isNone

/-- `excel_utils.validate_excel_data`.  Columns are lower-cased and stripped,
the missing-column check short-circuits returning the input dataframe
unchanged (as the source does), otherwise all-`NaN` rows are dropped (pandas
keeps the original integer index, hence `enum` before the filter) and each
surviving row goes through `validateRow`. -/
def validate_excel_data (df : Sheet) : Sheet × List String :=
  let cols := df.columns.map (fun c => pyStrip (pyLower c))
  let missing_columns := required_columns.filter (fun c => ¬ cols.contains c)
  if missing_columns ≠ [] then
    (⟨cols, df.rows⟩, ["Missing required columns: " ++ joinComma missing_columns])
  else
    let kept := df.rows.enum.filter (fun p => ¬ rowAllNa p.2)
    let results := kept.map (fun p => validateRow p.1 p.2)
    let valid_rows := results.filterMap (fun r =>
      match r with | .ok row => some row | .error _ => none)
    let skipped_rows := results.filterMap (fun r =>
      match r with | .ok _ => none | .error e => some e)
    if valid_rows ≠ [] then (⟨cols, valid_rows⟩, skipped_rows)
    else (⟨required_columns, []⟩, skipped_rows)

/-! ### API endpoints (`api.py`).  The module-level
`ENTRYDESK_WRITES_ENABLED` global is passed explicitly as `writesEnabled`;
the coach table is the list of existing coach ids; the database is the list
of athlete records, returned alongside the response. -/

/-- An `HTTPException`: status code and detail string. -/
structure HErr where
  status : Nat
  detail : String
deriving DecidableEq, Repr

/-- The `AthleteCreate` request model (it has no gender field). -/
structure AthleteCreate where
  name : String
  dob : SimpleDate
  dojo : String
  belt : String
  day : String
deriving DecidableEq, Repr

/-- Storage autoincrement of the primary key column `id`. -/
def next_pk (db : List AthleteRec) : Nat :=
  match (db.map (fun a => a.id)).max? with
  | some m => m + 1
  | none => 1

/-- `api.create_athlete` (POST `/api/athletes/{coach_id}`). -/
def create_athlete (writesEnabled : Bool) (coaches : List Nat) (db : List AthleteRec)
    (coach_id : Nat) (athlete : AthleteCreate) :
    Except HErr AthleteRec × List AthleteRec :=
  if ¬ writesEnabled then (.error ⟨403, "Registrations are closed"⟩, db)
  else if ¬ coaches.contains coach_id then (.error ⟨404, "Coach not found"⟩, db)
  else
    let unique_id := get_next_unique_id db
    let db_athlete : AthleteRec :=
      ⟨next_pk db, unique_id, athlete.name, athlete.dob, athlete.dojo, athlete.belt,
        athlete.day, none, coach_id⟩
    (.ok db_athlete, db ++ [db_athlete])

/-- The running state of the per-row insert loop in `upload_excel`. -/
structure UploadState where
  db : List AthleteRec
  errors : List String
  accepted : Nat
  rejected : Nat
  created : List AthleteRec
deriving DecidableEq, Repr

/-- `row['dob'].date()` on a validated row (always a parsed date there; the
default is unreachable on validated rows). -/
def getDob : Option DobCell → SimpleDate
  | some (.date d) => d
  | some (.str _) => ⟨1970, 1, 1⟩
  | none => ⟨1970, 1, 1⟩

/-- `row.get('name', 'unknown')`. -/
def getCellD : Option String → String
  | none => "unknown"
  | some s => s

/-- One iteration of the `for _, row in df.iterrows()` insert loop of
`api.upload_excel`.  `oracle` models the storage layer's exception behaviour
on this row's commit: `none` means the commit succeeds, `some e` means it
raises an exception rendered as `e`, caught by the per-row `except` which
rolls the transaction back (database unchanged) and records the error. -/
def processUploadRow (coach_id : Nat) (st : UploadState) (r : Row)
    (oracle : Option String) : UploadState :=
  let athlete_name := pyStrip (getCell r.name)
  let athlete_dob := getDob r.dob
  let athlete_dojo := pyStrip (getCell r.dojo)
  match check_duplicate_athlete st.db athlete_name athlete_dob (some athlete_dojo)
      (some coach_id) with
  | some existing =>
    ⟨st.db,
      st.errors ++ ["Row skipped: Duplicate athlete '" ++ athlete_name ++ "' (ID: " ++
        Nat.repr existing.unique_id ++ ")"],
      st.accepted, st.rejected + 1, st.created⟩
  | none =>
    let unique_id := get_next_unique_id st.db
    let athlete_gender := pyStrip (getCell r.gender)
    let db_athlete : AthleteRec :=
      ⟨next_pk st.db, unique_id, athlete_name, athlete_dob, athlete_dojo,
        pyStrip (getCell r.belt), pyStrip (getCell r.day), some athlete_gender, coach_id⟩
    match oracle with
    | some e =>
      ⟨st.db, st.errors ++ ["Error adding " ++ getCellD r.name ++ ": " ++ e],
        st.accepted, st.rejected + 1, st.created⟩
    | none =>
      ⟨st.db ++ [db_athlete], st.errors, st.accepted + 1, st.rejected,
        st.created ++ [db_athlete]⟩

/-- The whole insert loop of `api.upload_excel`, over rows paired with their
storage oracle. -/
def uploadRows (coach_id : Nat) (st : UploadState)
    (rows : List (Row × Option String)) : UploadState :=
  rows.foldl (fun s p => processUploadRow coach_id s p.1 p.2) st

/-- The `UploadResponse` model. -/
structure UploadResponse where
  accepted : Nat
  rejected : Nat
  errors : List String
  athletes : List AthleteRec
deriving DecidableEq, Repr

/-- `api.upload_excel` (POST `/api/upload/{coach_id}`).  Reading the uploaded
bytes is modelled by receiving the dataframe `df` directly; `oracle i` is the
storage behaviour for the `i`-th surviving row's commit. -/
def upload_excel (writesEnabled : Bool) (coaches : List Nat) (db : List AthleteRec)
    (coach_id : Nat) (df : Sheet) (oracle : Nat → Option String) :
    Except HErr UploadResponse × List AthleteRec :=
  if ¬ writesEnabled then (.error ⟨403, "Registrations are closed"⟩, db)
  else if ¬ coaches.contains coach_id then (.error ⟨404, "Coach not found"⟩, db)
  else
    let pr := validate_excel_data df
    let st0 : UploadState := ⟨db, pr.2, 0, pr.2.length, []⟩
    let st := uploadRows coach_id st0 (pr.1.rows.enum.map (fun p => (p.2, oracle p.1)))
    (.ok ⟨st.accepted, st.rejected, st.errors, st.created⟩, st.db)

/-- `api.delete_athlete` (DELETE `/api/athletes/{athlete_id}`); lookup is by
primary key `id`. -/
def delete_athlete (writesEnabled : Bool) (db : List AthleteRec) (athlete_id : Nat) :
    Except HErr String × List AthleteRec :=
  if ¬ writesEnabled then (.error ⟨403, "Registrations are closed"⟩, db)
  else
    match db.find? (fun a => a.id == athlete_id) with
    | none => (.error ⟨404, "Athlete not found"⟩, db)
    | some _ =>
      (.ok "Athlete deleted successfully", db.eraseP (fun a => a.id == athlete_id))

/-- `api.get_athletes` (GET `/api/athletes/{coach_id}`).  The write-lock flag
is in scope (module global) but deliberately never consulted: reads are
unguarded. -/
def get_athletes (_writesEnabled : Bool) (db : List AthleteRec) (coach_id : Nat) :
    List AthleteRec :=
  db.filter (fun a => a.coach_id == coach_id)

/-- The `belts[athlete.belt] = belts.get(athlete.belt, 0) + 1` dictionary
update, on an association list. -/
def bumpBelt (belts : List (String × Nat)) (b : String) : List (String × Nat) :=
  match belts.find? (fun p => p.1 == b) with
  | some _ => belts.map (fun p => if p.1 == b then (p.1, p.2 + 1) else p)
  | none => belts ++ [(b, 1)]

/-- The stats payload of `api.get_stats`. -/
structure Stats where
  total_athletes : Nat
  saturday : Nat
  sunday : Nat
  by_belt : List (String × Nat)
deriving DecidableEq, Repr

/-- `api.get_stats` (GET `/api/stats/{coach_id}`); like `get_athletes` it
never consults the write-lock flag. -/
def get_stats (_writesEnabled : Bool) (db : List AthleteRec) (coach_id : Nat) : Stats :=
  let athletes := db.filter (fun a => a.coach_id == coach_id)
  ⟨athletes.length,
    (athletes.filter (fun a => a.day == "Saturday")).length,
    (athletes.filter (fun a => a.day == "Sunday")).length,
    athletes.foldl (fun belts a => bumpBelt belts a.belt) []⟩

/-- A stored athlete used by the duplicate-detector and upload claims. -/
def dupRecord : AthleteRec :=
  ⟨1, 7, "Ann  Lee", ⟨2010, 1, 1⟩, "Main Dojo", "White", "Saturday", some "Female", 1⟩

/-! ### Claim C5: missing required columns -/

/-- A data row used by the missing-column claim. -/
def c5Row : Row :=
  ⟨some "x", some (.str "2010-05-15"), some "d", none, some "sat", some "m"⟩

/-- The failing input: a sheet whose header lacks the `belt` column, with one
data row. -/
def c5Sheet : Sheet := ⟨["name", "dob", "dojo", "day", "gender"], [c5Row]⟩

/-- C5, evaluated at the failing input: the processor does short-circuit with
exactly one error naming the missing `belt` column and never runs per-row
validation, but it returns the input dataframe with its data row — not the
empty accepted sequence the claim (and the sibling no-valid-rows path of the
code itself) calls for. -/
theorem c5_missing_column_behaviour :
    validate_excel_data c5Sheet
        = (⟨["name", "dob", "dojo", "day", "gender"], [c5Row]⟩,
          ["Missing required columns: belt"]) ∧
      (validate_excel_data c5Sheet).1.rows ≠ [] :=
  ⟨rfl, by decide⟩

/-! ### Claim C6: per-row failures during bulk upload -/

theorem processUploadRow_outcome (coach_id : Nat) (st : UploadState) (r : Row)
    (oracle : Option String) :
    (processUploadRow coach_id st r oracle).accepted
        + (processUploadRow coach_id st r oracle).rejected
      = st.accepted + st.rejected + 1 := by
  simp only [processUploadRow]
  cases hdup : check_duplicate_athlete st.db (pyStrip (getCell r.name)) (getDob r.dob)
      (some (pyStrip (getCell r.dojo))) (some coach_id) with
  | some ex => simp; omega
  | none =>
    cases oracle with
    | some e => simp; omega
    | none => simp; omega

theorem uploadRows_count (coach_id : Nat) :
    ∀ (rows : List (Row × Option String)) (st : UploadState),
      (uploadRows coach_id st rows).accepted + (uploadRows coach_id st rows).rejected
        = st.accepted + st.rejected + rows.length := by
  intro rows
  induction rows with
  | nil => intro st; simp [uploadRows]
  | cons p rest ih =>
    intro st
    have hstep := processUploadRow_outcome coach_id st p.1 p.2
    have hrest := ih (processUploadRow coach_id st p.1 p.2)
    simp only [uploadRows, List.foldl_cons] at hrest ⊢
    rw [hrest, hstep]
    simp [List.length_cons]
    omega

theorem processUploadRow_duplicate (coach_id : Nat) (st : UploadState) (r : Row)
    (oracle : Option String) (ex : AthleteRec)
    (h : check_duplicate_athlete st.db (pyStrip (getCell r.name)) (getDob r.dob)
        (some (pyStrip (getCell r.dojo))) (some coach_id) = some ex) :
    processUploadRow coach_id st r oracle =
      ⟨st.db,
        st.errors ++ ["Row skipped: Duplicate athlete '" ++ pyStrip (getCell r.name) ++
          "' (ID: " ++ Nat.repr ex.unique_id ++ ")"],
        st.accepted, st.rejected + 1, st.created⟩ := by
  simp only [processUploadRow, h]

theorem processUploadRow_storage_error (coach_id : Nat) (st : UploadState) (r : Row)
    (e : String)
    (h : check_duplicate_athlete st.db (pyStrip (getCell r.name)) (getDob r.dob)
        (some (pyStrip (getCell r.dojo))) (some coach_id) = none) :
    processUploadRow coach_id st r (some e) =
      ⟨st.db, st.errors ++ ["Error adding " ++ getCellD r.name ++ ": " ++ e],
        st.accepted, st.rejected + 1, st.created⟩ := by
  simp only [processUploadRow, h]

/-- C6: per-row failures during bulk upload never abort the batch — every
row contributes exactly one outcome, so processed-outcome counts always sum
to the input length — a duplicate match is recorded as a rejection whose
skip message references the conflicting record's uniqueId (database
untouched), and a storage error on a row's insert is rolled back, recorded
as a rejection, and processing continues. -/
theorem c6_per_row_failures_never_abort :
    (∀ (coach_id : Nat) (rows : List (Row × Option String)) (st : UploadState),
      (uploadRows coach_id st rows).accepted + (uploadRows coach_id st rows).rejected
        = st.accepted + st.rejected + rows.length) ∧
      (∀ (coach_id : Nat) (st : UploadState) (r : Row) (oracle : Option String)
        (ex : AthleteRec),
        check_duplicate_athlete st.db (pyStrip (getCell r.name)) (getDob r.dob)
            (some (pyStrip (getCell r.dojo))) (some coach_id) = some ex →
          processUploadRow coach_id st r oracle =
            ⟨st.db, st.errors ++ ["Row skipped: Duplicate athlete '" ++
              pyStrip (getCell r.name) ++ "' (ID: " ++ Nat.repr ex.unique_id ++ ")"],
              st.accepted, st.rejected + 1, st.created⟩) ∧
      ∀ (coach_id : Nat) (st : UploadState) (r : Row) (e : String),
        check_duplicate_athlete st.db (pyStrip (getCell r.name)) (getDob r.dob)
            (some (pyStrip (getCell r.dojo))) (some coach_id) = none →
          processUploadRow coach_id st r (some e) =
            ⟨st.db, st.errors ++ ["Error adding " ++ getCellD r.name ++ ": " ++ e],
              st.accepted, st.rejected + 1, st.created⟩ :=
  ⟨uploadRows_count, processUploadRow_duplicate, processUploadRow_storage_error⟩

/-- The upload state before re-inserting an athlete who is already stored. -/
def c6State : UploadState := ⟨[dupRecord], [], 0, 0, []⟩

/-- A row equal to `dupRecord` up to case and internal spacing. -/
def c6Row : Row :=
  ⟨some " ann LEE ", some (.date ⟨2010, 1, 1⟩), some "main  dojo", some "White",
    some "Saturday", some "Female"⟩

theorem c6_per_row_failures_never_abort_witness :
    processUploadRow 1 c6State c6Row none =
      ⟨[dupRecord], ["Row skipped: Duplicate athlete 'ann LEE' (ID: 7)"], 0, 1, []⟩ := by
  rw [c6_per_row_failures_never_abort.2.1 1 c6State c6Row none dupRecord (by decide)]
  decide

/-! ### Claim C4: the unique-id allocator -/

/-- An athlete record as inserted by the sequential registration loop; only
the allocated `unique_id` varies. -/
def allocAthlete (uid : Nat) : AthleteRec :=
  ⟨uid, uid, "Athlete", ⟨2010, 1, 1⟩, "Dojo", "White", "Saturday", some "Male", 1⟩

/-- `n` rounds of the sequential single-threaded allocate-and-insert loop
from an empty store: each round allocates `get_next_unique_id` and inserts a
record carrying it. -/
def allocStore : Nat → List AthleteRec
  | 0 => []
  | n + 1 =>
    let db := allocStore n
    db ++ [allocAthlete (get_next_unique_id db)]

theorem get_next_unique_id_of_max (db : List AthleteRec) (M : Nat)
    (hm : M ∈ db.map (fun a => a.unique_id))
    (hmax : ∀ u ∈ db.map (fun a => a.unique_id), u ≤ M) :
    get_next_unique_id db = M + 1 := by
  unfold get_next_unique_id
  have h : (db.map (fun a => a.unique_id)).max? = some M := by
    rw [List.max?_eq_some_iff Nat.le_refl (fun a b => max_choice a b)
      (fun a b c => Nat.max_le)]
    exact ⟨hm, hmax⟩
  rw [h]

theorem allocStore_ids : ∀ n, (allocStore n).map (fun a => a.unique_id) = List.range' 1 n := by
  intro n
  induction n with
  | zero => rfl
  | succ n ih =>
    rw [show allocStore (n + 1)
        = allocStore n ++ [allocAthlete (get_next_unique_id (allocStore n))] from rfl]
    rw [List.map_append, ih]
    have hid : get_next_unique_id (allocStore n) = n + 1 := by
      cases n with
      | zero => rfl
      | succ m =>
        apply get_next_unique_id_of_max _ (m + 1)
        · rw [ih, List.mem_range'_1]; omega
        · rw [ih]; intro u hu; rw [List.mem_range'_1] at hu; omega
    rw [hid, List.range'_1_concat, Nat.add_comm 1 n]
    rfl

/-- C4: `get_next_unique_id` returns the maximum existing `unique_id` plus
one when a record exists and `1` on an empty store, so sequential
single-threaded allocation from empty yields exactly the ids `1, 2, ..., n`
(the N-th allocated id is N: strictly increasing, gap-free). -/
theorem c4_next_unique_id :
    get_next_unique_id [] = 1 ∧
      (∀ (db : List AthleteRec) (M : Nat), M ∈ db.map (fun a => a.unique_id) →
        (∀ u ∈ db.map (fun a => a.unique_id), u ≤ M) → get_next_unique_id db = M + 1) ∧
      ∀ n, (allocStore n).map (fun a => a.unique_id) = List.range' 1 n :=
  ⟨rfl, get_next_unique_id_of_max, allocStore_ids⟩

theorem c4_next_unique_id_witness : get_next_unique_id [allocAthlete 5] = 6 :=
  c4_next_unique_id.2.1 [allocAthlete 5] 5 (by simp [allocAthlete]) (by simp [allocAthlete])

/-! ### Claim C7: the write lock -/

/-- C7: with the write-lock flag disabled every mutating endpoint (create,
upload, delete) rejects with the distinguishable 403 "Registrations are
closed" signal and leaves the database unchanged, while the read endpoints
(list athletes, stats) ignore the flag entirely. -/
theorem c7_write_lock_gates_mutations :
    (∀ coaches db coach_id a, create_athlete false coaches db coach_id a
      = (.error ⟨403, "Registrations are closed"⟩, db)) ∧
      (∀ coaches db coach_id df oracle, upload_excel false coaches db coach_id df oracle
        = (.error ⟨403, "Registrations are closed"⟩, db)) ∧
      (∀ db athlete_id, delete_athlete false db athlete_id
        = (.error ⟨403, "Registrations are closed"⟩, db)) ∧
      (∀ w w' db coach_id, get_athletes w db coach_id = get_athletes w' db coach_id) ∧
      ∀ w w' db coach_id, get_stats w db coach_id = get_stats w' db coach_id :=
  ⟨fun _ _ _ _ => rfl, fun _ _ _ _ _ => rfl, fun _ _ => rfl, fun _ _ _ _ => rfl,
    fun _ _ _ _ => rfl⟩

/-! ### Claim C1: validation order, short-circuit and message format -/

/-- The name rule of the claimed validation order, in isolation. -/
def nameError (row : Row) : Option String :=
  if isBlankCell row.name then some "Missing name" else none

/-- The dob rule of the claimed validation order, in isolation. -/
def dobError (row : Row) : Option String :=
  match row.dob with
  | none => some "Missing DOB"
  | some (.date _) => none
  | some (.str s) =>
    match parseDate s with
    | none => some "Invalid DOB format"
    | some _ => none

/-- The dojo rule of the claimed validation order, in isolation. -/
def dojoError (row : Row) : Option String :=
  if isBlankCell row.dojo then some "Missing dojo" else none

/-- The belt rule of the claimed validation order, in isolation. -/
def beltError (row : Row) : Option String :=
  if isBlankCell row.belt then some "Missing belt"
  else if ¬ valid_belts.contains (pyLower (pyStrip (getCell row.belt))) then
    some ("Invalid belt '" ++ getCell row.belt ++ "'")
  else none

/-- The day rule of the claimed validation order, in isolation. -/
def dayError (row : Row) : Option String :=
  if isBlankCell row.day then some "Missing day"
  else if saturday_tokens.contains (pyLower (pyStrip (getCell row.day)))
      ∨ sunday_tokens.contains (pyLower (pyStrip (getCell row.day))) then none
  else some ("Invalid day '" ++ getCell row.day ++ "' (expected: Saturday/Sunday/Sat/Sun)")

/-- The gender rule of the claimed validation order, in isolation. -/
def genderError (row : Row) : Option String :=
  if isBlankCell row.gender then some "Missing gender"
  else if male_tokens.contains (pyLower (pyStrip (getCell row.gender)))
      ∨ female_tokens.contains (pyLower (pyStrip (getCell row.gender))) then none
  else
    some ("Invalid gender '" ++ getCell row.gender ++
      "' (expected: Male/Female/M/F/Boy/Girl/B/G)")

/-- The six field rules applied in the claimed fixed order — name, dob, dojo,
belt, day, gender — first failure wins. -/
def firstFieldError (row : Row) : Option String :=
  (nameError row).orElse fun _ =>
    (dobError row).orElse fun _ =>
      (dojoError row).orElse fun _ =>
        (beltError row).orElse fun _ =>
          (dayError row).orElse fun _ => genderError row

/-- The error component of a validation result. -/
def errOf : Except String Row → Option String
  | .error m => some m
  | .ok _ => none

@[simp]
theorem fuse_invalid_belt (t : String) :
    (": " : String) ++ ("Invalid belt '" ++ t) = ": Invalid belt '" ++ t := by
  rw [← String.append_assoc]; simp

@[simp]
theorem fuse_invalid_day (t : String) :
    (": " : String) ++ ("Invalid day '" ++ t) = ": Invalid day '" ++ t := by
  rw [← String.append_assoc]; simp

@[simp]
theorem fuse_invalid_gender (t : String) :
    (": " : String) ++ ("Invalid gender '" ++ t) = ": Invalid gender '" ++ t := by
  rw [← String.append_assoc]; simp

theorem errOf_validateRowTail (rowNum : Nat) (row : Row) (d : SimpleDate) :
    errOf (validateRowTail rowNum row d)
      = ((dojoError row).orElse fun _ =>
          (beltError row).orElse fun _ =>
            (dayError row).orElse fun _ => genderError row).map
        (fun m => "Row " ++ Nat.repr rowNum ++ ": " ++ m) := by
  by_cases h3 : isBlankCell row.dojo
  · simp [validateRowTail, String.append_assoc, errOf, dojoError, h3, Option.orElse]
  · by_cases h4 : isBlankCell row.belt
    · simp [validateRowTail, String.append_assoc, errOf, dojoError, beltError, h3, h4, Option.orElse]
    · by_cases h5 : pyLower (pyStrip (getCell row.belt)) ∈ valid_belts
      · by_cases h6 : isBlankCell row.day
        · simp [validateRowTail, String.append_assoc, errOf, dojoError, beltError, dayError, h3, h4, h5, h6,
            Option.orElse]
        · by_cases h7 : pyLower (pyStrip (getCell row.day)) ∈ saturday_tokens
          · by_cases h9 : isBlankCell row.gender
            · simp [validateRowTail, String.append_assoc, errOf, dojoError, beltError, dayError, genderError,
                h3, h4, h5, h6, h7, h9, Option.orElse]
            · by_cases hm : pyLower (pyStrip (getCell row.gender)) ∈ male_tokens
              · simp [validateRowTail, String.append_assoc, errOf, dojoError, beltError, dayError, genderError,
                  h3, h4, h5, h6, h7, h9, hm, Option.orElse]
              · by_cases hf : pyLower (pyStrip (getCell row.gender)) ∈ female_tokens
                · simp [validateRowTail, String.append_assoc, errOf, dojoError, beltError, dayError, genderError,
                    h3, h4, h5, h6, h7, h9, hm, hf, Option.orElse]
                · simp [validateRowTail, String.append_assoc, errOf, dojoError, beltError, dayError, genderError,
                    h3, h4, h5, h6, h7, h9, hm, hf, Option.orElse]
          · by_cases h8 : pyLower (pyStrip (getCell row.day)) ∈ sunday_tokens
            · by_cases h9 : isBlankCell row.gender
              · simp [validateRowTail, String.append_assoc, errOf, dojoError, beltError, dayError, genderError,
                  h3, h4, h5, h6, h7, h8, h9, Option.orElse]
              · by_cases hm : pyLower (pyStrip (getCell row.gender)) ∈ male_tokens
                · simp [validateRowTail, String.append_assoc, errOf, dojoError, beltError, dayError, genderError,
                    h3, h4, h5, h6, h7, h8, h9, hm, Option.orElse]
                · by_cases hf : pyLower (pyStrip (getCell row.gender)) ∈ female_tokens
                  · simp [validateRowTail, String.append_assoc, errOf, dojoError, beltError, dayError, genderError,
                      h3, h4, h5, h6, h7, h8, h9, hm, hf, Option.orElse]
                  · simp [validateRowTail, String.append_assoc, errOf, dojoError, beltError, dayError, genderError,
                      h3, h4, h5, h6, h7, h8, h9, hm, hf, Option.orElse]
            · simp [validateRowTail, String.append_assoc, errOf, dojoError, beltError, dayError, h3, h4, h5, h6,
                h7, h8, Option.orElse]
      · simp [validateRowTail, String.append_assoc, errOf, dojoError, beltError, h3, h4, h5, Option.orElse]

/-- C1: for every row, validation applies the field rules in the fixed order
name, dob, dojo, belt, day, gender, stops at the first failing field, and
reports that single reason as `"Row {n}: {message}"` with `n` the row's
0-based data index plus 2 (so data row 0 is reported as "Row 2"). -/
theorem c1_validation_order_and_format (idx : Nat) (row : Row) :
    errOf (validateRow idx row)
      = (firstFieldError row).map (fun m => "Row " ++ Nat.repr (idx + 2) ++ ": " ++ m) := by
  by_cases h1 : isBlankCell row.name
  · simp [validateRow, String.append_assoc, errOf, firstFieldError, nameError, h1, Option.orElse]
  · cases hdob : row.dob with
    | none =>
      simp [validateRow, String.append_assoc, errOf, firstFieldError, nameError, dobError, h1, hdob, Option.orElse]
    | some dc =>
      cases dc with
      | date d =>
        have ht := errOf_validateRowTail (idx + 2) row d
        simp [validateRow, String.append_assoc, firstFieldError, nameError, dobError, h1, hdob, Option.orElse, ht]
      | str s =>
        cases hp : parseDate s with
        | none =>
          simp [validateRow, String.append_assoc, errOf, firstFieldError, nameError, dobError, h1, hdob, hp,
            Option.orElse]
        | some d =>
          have ht := errOf_validateRowTail (idx + 2) row d
          simp [validateRow, String.append_assoc, firstFieldError, nameError, dobError, h1, hdob, hp,
            Option.orElse, ht]

/-! ### Claim C3: the cleaned candidate -/

/-- The canonical capitalized belt values. -/
def canonical_belts : List (Option String) :=
  [some "White", some "Yellow", some "Blue", some "Purple", some "Green", some "Brown",
    some "Black"]

theorem validateRowTail_ok (rowNum : Nat) (row clean : Row) (d : SimpleDate)
    (h : validateRowTail rowNum row d = .ok clean) :
    clean.name = row.name ∧ clean.dojo = row.dojo ∧ clean.belt ∈ canonical_belts ∧
      clean.day ∈ [some "Saturday", some "Sunday"] ∧
      clean.gender ∈ [some "Male", some "Female"] := by
  by_cases h3 : isBlankCell row.dojo
  · simp [validateRowTail, h3] at h
  · by_cases h4 : isBlankCell row.belt
    · simp [validateRowTail, h3, h4] at h
    · by_cases h5 : pyLower (pyStrip (getCell row.belt)) ∈ valid_belts
      · have hbelt : some (pyCapitalize (pyLower (pyStrip (getCell row.belt))))
            ∈ canonical_belts := by
          simp only [valid_belts, List.mem_cons, List.mem_singleton,
            List.not_mem_nil, or_false] at h5
          rcases h5 with h | h | h | h | h | h | h <;> rw [h] <;> decide
        by_cases h6 : isBlankCell row.day
        · simp [validateRowTail, h3, h4, h5, h6] at h
        · by_cases h7 : pyLower (pyStrip (getCell row.day)) ∈ saturday_tokens
          · by_cases h9 : isBlankCell row.gender
            · simp [validateRowTail, h3, h4, h5, h6, h7, h9] at h
            · by_cases hm : pyLower (pyStrip (getCell row.gender)) ∈ male_tokens
              · simp [validateRowTail, h3, h4, h5, h6, h7, h9, hm] at h
                rw [← h]
                exact ⟨rfl, rfl, hbelt, by simp, by simp⟩
              · by_cases hf : pyLower (pyStrip (getCell row.gender)) ∈ female_tokens
                · simp [validateRowTail, h3, h4, h5, h6, h7, h9, hm, hf] at h
                  rw [← h]
                  exact ⟨rfl, rfl, hbelt, by simp, by simp⟩
                · simp [validateRowTail, h3, h4, h5, h6, h7, h9, hm, hf] at h
          · by_cases h8 : pyLower (pyStrip (getCell row.day)) ∈ sunday_tokens
            · by_cases h9 : isBlankCell row.gender
              · simp [validateRowTail, h3, h4, h5, h6, h7, h8, h9] at h
              · by_cases hm : pyLower (pyStrip (getCell row.gender)) ∈ male_tokens
                · simp [validateRowTail, h3, h4, h5, h6, h7, h8, h9, hm] at h
                  rw [← h]
                  exact ⟨rfl, rfl, hbelt, by simp, by simp⟩
                · by_cases hf : pyLower (pyStrip (getCell row.gender)) ∈ female_tokens
                  · simp [validateRowTail, h3, h4, h5, h6, h7, h8, h9, hm, hf] at h
                    rw [← h]
                    exact ⟨rfl, rfl, hbelt, by simp, by simp⟩
                  · simp [validateRowTail, h3, h4, h5, h6, h7, h8, h9, hm, hf] at h
            · simp [validateRowTail, h3, h4, h5, h6, h7, h8] at h
      · simp [validateRowTail, h3, h4, h5] at h

/-- The scenario row of C3. -/
def c3Row : Row :=
  ⟨some "  john DOE ", some (.str "2010-05-15"), some "Main Dojo", some "yellow",
    some "sat", some "m"⟩

/-- What the code actually returns for the scenario row: `name` untrimmed. -/
def c3Actual : Row :=
  ⟨some "  john DOE ", some (.date ⟨2010, 5, 15⟩), some "Main Dojo", some "Yellow",
    some "Saturday", some "Male"⟩

/-- C3 is falsified on its own scenario: the validator returns the scenario
row with `name` exactly as input (`"  john DOE "`), not trimmed to
`"john DOE"` — name and dojo are never trimmed by the validator. -/
theorem c3_counterexample :
    validateRow 0 c3Row = .ok c3Actual ∧ c3Actual.name ≠ some "john DOE" :=
  ⟨rfl, by decide⟩

/-- C3 (amended): on success the validator returns the row with `name` and
`dojo` exactly as input (untrimmed — trimming happens later, at insertion)
and the enumerated fields canonicalized (belt capitalized, day mapped to
Saturday/Sunday, gender to Male/Female); the scenario row thus validates to
`{name: "  john DOE ", dob: 2010-05-15, dojo: "Main Dojo", belt: "Yellow",
day: "Saturday", gender: "Male"}`. -/
theorem c3_cleaned_row_fields :
    (∀ (idx : Nat) (row clean : Row), validateRow idx row = .ok clean →
      clean.name = row.name ∧ clean.dojo = row.dojo ∧ clean.belt ∈ canonical_belts ∧
        clean.day ∈ [some "Saturday", some "Sunday"] ∧
        clean.gender ∈ [some "Male", some "Female"]) ∧
      validateRow 0 c3Row = .ok c3Actual := by
  constructor
  · intro idx row clean h
    by_cases h1 : isBlankCell row.name
    · simp [validateRow, h1] at h
    · cases hdob : row.dob with
      | none => simp [validateRow, h1, hdob] at h
      | some dc =>
        cases dc with
        | date d =>
          simp only [validateRow, h1, hdob, if_false, Bool.false_eq_true] at h
          exact validateRowTail_ok (idx + 2) row clean d (by simpa using h)
        | str s =>
          cases hp : parseDate s with
          | none => simp [validateRow, h1, hdob, hp] at h
          | some d =>
            simp only [validateRow, h1, hdob, hp, if_false, Bool.false_eq_true] at h
            exact validateRowTail_ok (idx + 2) row clean d (by simpa using h)
  · rfl

theorem c3_cleaned_row_fields_witness :
    c3Actual.name = c3Row.name ∧ c3Actual.dojo = c3Row.dojo ∧
      c3Actual.belt ∈ canonical_belts ∧ c3Actual.day ∈ [some "Saturday", some "Sunday"] ∧
      c3Actual.gender ∈ [some "Male", some "Female"] :=
  c3_cleaned_row_fields.1 0 c3Row c3Actual c3_cleaned_row_fields.2

/-! ### Claims C2 and C10: the duplicate detector -/

/-- The record-match test that `dupScan` implements, as a single predicate. -/
def dupMatchPred (nn : String) (nd : Option String) (a : AthleteRec) : Bool :=
  decide (normalize_string (some a.name) = nn) &&
    (match nd with
     | some d => if d ≠ "" then decide (normalize_string (some a.dojo) = d) else true
     | none => true)

theorem dupScan_eq_find? (nn : String) (nd : Option String) :
    ∀ l : List AthleteRec, dupScan nn nd l = l.find? (dupMatchPred nn nd) := by
  intro l
  induction l with
  | nil => rfl
  | cons a rest ih =>
    by_cases hn : normalize_string (some a.name) = nn
    · match nd with
      | none => simp [dupScan, hn, List.find?_cons, dupMatchPred]
      | some d =>
        by_cases hd : d = ""
        · subst hd
          simp [dupScan, hn, List.find?_cons, dupMatchPred]
        · by_cases hdj : normalize_string (some a.dojo) = d
          · simp [dupScan, hn, hd, hdj, List.find?_cons, dupMatchPred]
          · simp [dupScan, hn, hd, hdj, List.find?_cons, dupMatchPred, ih]
    · simp [dupScan, hn, List.find?_cons, dupMatchPred, ih]

/-- The duplicate rule exactly as claim C2 words it: records filtered by
exact dob (and by owner when a coach scope is supplied); the dojo comparison
runs whenever the candidate's dojo is a non-empty string. -/
def claimedFindDuplicate (db : List AthleteRec) (name : String) (dob : SimpleDate)
    (dojo : Option String) (coach_id : Option Nat) : Option AthleteRec :=
  let pool : List AthleteRec :=
    match coach_id with
    | some cid =>
      (db.filter (fun (a : AthleteRec) => a.dob == dob)).filter
        (fun (a : AthleteRec) => a.coach_id == cid)
    | none => db.filter (fun (a : AthleteRec) => a.dob == dob)
  pool.find? (fun a =>
    decide (normalize_string (some a.name) = normalize_string (some name)) &&
      (match dojo with
       | some d =>
         if d ≠ "" then decide (normalize_string (some a.dojo) = normalize_string (some d))
         else true
       | none => true))

/-- C2 is falsified at a whitespace-only dojo `" "`: it is a non-empty
string, so the claim requires the dojo comparison to run (which would fail
against the record's dojo `"Main Dojo"`), but the code skips the comparison
and reports the record as a duplicate. -/
theorem c2_counterexample :
    check_duplicate_athlete [dupRecord] "ann lee" ⟨2010, 1, 1⟩ (some " ") none
        = some dupRecord ∧
      claimedFindDuplicate [dupRecord] "ann lee" ⟨2010, 1, 1⟩ (some " ") none = none :=
  ⟨rfl, rfl⟩

/-- C2 (amended): the detector scans only records with exactly equal dob
(restricted to the supplied coach id, when one is given and positive) and
returns the first whose normalized name equals the candidate's and — exactly
when the candidate's dojo normalizes to a non-empty string — whose
normalized dojo matches too; a dojo that is absent, empty, or normalizes to
the empty string is not compared; `none` when no record qualifies. -/
theorem c2_duplicate_characterization (db : List AthleteRec) (name : String)
    (dob : SimpleDate) (dojo : Option String) (coach_id : Option Nat)
    (hcoach : ∀ c, coach_id = some c → c ≠ 0) :
    check_duplicate_athlete db name dob dojo coach_id =
      (db.filter (fun a => a.dob == dob &&
          match coach_id with
          | some cid => a.coach_id == cid
          | none => true)).find?
        (fun a =>
          decide (normalize_string (some a.name) = normalize_string (some name)) &&
            (if normalize_string dojo ≠ "" then
              decide (normalize_string (some a.dojo) = normalize_string dojo)
            else true)) := by
  have hpred : dupMatchPred (normalize_string (some name))
      (if truthyStr dojo then some (normalize_string dojo) else none)
      = fun a =>
          decide (normalize_string (some a.name) = normalize_string (some name)) &&
            (if normalize_string dojo ≠ "" then
              decide (normalize_string (some a.dojo) = normalize_string dojo)
            else true) := by
    funext a
    cases dojo with
    | none => simp [dupMatchPred, truthyStr, normalize_string]
    | some d =>
      by_cases hd : d = ""
      · subst hd
        simp [dupMatchPred, truthyStr, normalize_string]
      · by_cases hnd : normalize_string (some d) = ""
        · simp [dupMatchPred, truthyStr, hd, hnd]
        · simp [dupMatchPred, truthyStr, hd, hnd]
  cases coach_id with
  | none =>
    simp only [check_duplicate_athlete]
    rw [dupScan_eq_find?, hpred]
    have hfil : (db.filter (fun a => a.dob == dob))
        = db.filter (fun a => a.dob == dob && true) := by
      simp
    rw [← hfil]
  | some cid =>
    have hcid : cid ≠ 0 := hcoach cid rfl
    simp only [check_duplicate_athlete]
    rw [dupScan_eq_find?, hpred, if_pos hcid, List.filter_filter]
    have hcomm : ∀ a : AthleteRec,
        ((a.coach_id == cid) && (a.dob == dob)) = ((a.dob == dob) && (a.coach_id == cid)) :=
      fun a => Bool.and_comm _ _
    rw [List.filter_congr (fun a _ => hcomm a)]

theorem c2_duplicate_characterization_witness :
    check_duplicate_athlete [dupRecord] "ann lee" ⟨2010, 1, 1⟩ (some "MAIN  dojo") (some 1)
      = some dupRecord := by
  rw [c2_duplicate_characterization [dupRecord] "ann lee" ⟨2010, 1, 1⟩ (some "MAIN  dojo")
    (some 1) (fun c hc => by cases hc; decide)]
  rfl

/-- The dob filter plus the coach scoping of `check_duplicate_athlete`
(including the source's truthiness gate on the coach id), as a standalone
function. -/
def dobCoachScope (db : List AthleteRec) (dob : SimpleDate) (coach_id : Option Nat) :
    List AthleteRec :=
  let query : List AthleteRec := db.filter (fun (a : AthleteRec) => a.dob == dob)
  match coach_id with
  | some cid =>
    if cid ≠ 0 then query.filter (fun (a : AthleteRec) => a.coach_id == cid) else query
  | none => query

/-- C10: whenever the candidate's dojo normalizes to the empty string
(absent, empty, or whitespace-only), the dojo is not compared at all: the
detector returns the first dob-filtered (and coach-scoped, as in the source)
record whose normalized name matches the candidate's, regardless of that
record's dojo. -/
theorem c10_blank_dojo_ignores_dojo (db : List AthleteRec) (name : String)
    (dob : SimpleDate) (dojo : Option String) (coach_id : Option Nat)
    (hdojo : normalize_string dojo = "") :
    check_duplicate_athlete db name dob dojo coach_id =
      (dobCoachScope db dob coach_id).find?
        (fun a => decide (normalize_string (some a.name) = normalize_string (some name))) := by
  simp only [check_duplicate_athlete, dobCoachScope]
  rw [dupScan_eq_find?]
  have hpred : dupMatchPred (normalize_string (some name))
      (if truthyStr dojo then some (normalize_string dojo) else none)
      = fun a => decide (normalize_string (some a.name) = normalize_string (some name)) := by
    funext a
    cases dojo with
    | none => simp [dupMatchPred, truthyStr]
    | some d =>
      by_cases hd : d = ""
      · subst hd
        simp [dupMatchPred, truthyStr]
      · have hnd : normalize_string (some d) = "" := hdojo
        simp [dupMatchPred, truthyStr, hd, hnd]
  rw [hpred]

theorem c10_blank_dojo_witness :
    check_duplicate_athlete [dupRecord] "ann lee" ⟨2010, 1, 1⟩ (some " ") (some 1)
      = some dupRecord := by
  rw [c10_blank_dojo_ignores_dojo [dupRecord] "ann lee" ⟨2010, 1, 1⟩ (some " ") (some 1) rfl]
  rfl

/-! ### Claim C8 and C9: the normalizer -/

/-- C8: `normalize_string` returns `""` for null input and otherwise the
input trimmed of surrounding whitespace, with internal whitespace runs
collapsed to single spaces, lower-cased (`specNormalize` is assembled from
exactly those words); consequently `normalize(" A  Name ") = normalize("a name")`. -/
theorem c8_normalize_matches_spec :
    (∀ s : Option String, normalize_string s = specNormalize s) ∧
      normalize_string (some " A  Name ") = normalize_string (some "a name") := by
  constructor
  · intro s
    match s with
    | none => rfl
    | some s => rw [normalize_string_eq_canon, specNormalize_eq_canon]
  · rfl

/-- C9: the normalizer is idempotent — normalizing an already-normalized
string returns it unchanged. -/
theorem c9_normalize_idem (s : String) :
    normalize_string (some (normalize_string (some s))) = normalize_string (some s) := by
  rw [normalize_string_eq_canon s, normalize_string_eq_canon]
  congr 1
  show (canonF false ((String.mk ((canonF false s.data).map lowerChar)).data)).map lowerChar
      = (canonF false s.data).map lowerChar
  rw [show (String.mk ((canonF false s.data).map lowerChar)).data
        = (canonF false s.data).map lowerChar from rfl]
  rw [canonF_map_lower false (canonF false s.data), (canonF_idem s.data).1, List.map_map]
  rw [show lowerChar ∘ lowerChar = lowerChar from funext lowerChar_idem]

end EntryDesk
